import Mathlib

/-!
Shallow embedding of the `rust_wc` word-count program (`src/main.rs`).

Strings from the Rust side are modelled as `List Char` (Rust `String` is
UTF-8-encoded Unicode scalar values; byte lengths are recovered with
`Char.utf8Size`).  Raw byte buffers (the NUL-delimited manifest read with
`read_until`) are modelled as `List Nat` with each element a byte value.
`usize`/`u64` counters are modelled as `Nat`; in `Counts.merge_with`, where
the operands are arbitrary records, additions are taken modulo `2 ^ 64` to
match the machine-width wrapping of `usize`/`u64`.  Per-scan accumulation in
`count_file` is plain `Nat`: every counter there is bounded by the byte
length of the stream, so no 64-bit overflow can occur for a representable
stream.

Grapheme segmentation (the `unicode_segmentation` crate, used only when the
`--utf-chars` flag is set) is an external library; `count_file` takes the
grapheme-counting function `g` as an explicit parameter, exactly where the
Rust code calls `line_buf.graphemes(true).count()`.
-/

/-- Byte width of `usize`/`u64` arithmetic. -/
def W64 : Nat := 2 ^ 64

/-- `const LINE_CHARS: &[char] = &['\n', '\r', '\u{0C}'];` (main.rs line 14),
as a membership test. -/
def is_line_char (c : Char) : Bool :=
  c == '\n' || c == '\r' || c == '\u000C'

/-- Rust `char::is_whitespace`: the Unicode `White_Space` property. -/
def rust_is_whitespace (c : Char) : Bool :=
  decide (c.toNat = 0x09) || decide (c.toNat = 0x0A) || decide (c.toNat = 0x0B) ||
  decide (c.toNat = 0x0C) || decide (c.toNat = 0x0D) || decide (c.toNat = 0x20) ||
  decide (c.toNat = 0x85) || decide (c.toNat = 0xA0) || decide (c.toNat = 0x1680) ||
  (decide (0x2000 ≤ c.toNat) && decide (c.toNat ≤ 0x200A)) ||
  decide (c.toNat = 0x2028) || decide (c.toNat = 0x2029) ||
  decide (c.toNat = 0x202F) || decide (c.toNat = 0x205F) || decide (c.toNat = 0x3000)

/-- Rust `str::trim`: strip leading and trailing Unicode whitespace. -/
def rust_trim (s : List Char) : List Char :=
  ((s.dropWhile rust_is_whitespace).reverse.dropWhile rust_is_whitespace).reverse

/-- UTF-8 byte length of a Rust string (`str::as_bytes().len()`). -/
def utf8Len (s : List Char) : Nat :=
  (s.map Char.utf8Size).sum

/-- Split a stream into the maximal chunks each ending with a delimiter
(`p`-satisfying element) or running to end of stream.  This is the common
semantics of `BufRead::read_line` (delimiter `'\n'`) and
`BufRead::read_until(b'\0')`: each returned chunk is non-empty, includes its
terminating delimiter when one was found, and the final chunk may be
unterminated. -/
def chunksBy (p : α → Bool) : List α → List (List α)
  | [] => []
  | b :: rest =>
    if p b then [b] :: chunksBy p rest
    else
      match chunksBy p rest with
      | [] => [[b]]
      | c :: cs => (b :: c) :: cs

/-- The successive buffers produced by `buffer.read_line(&mut line_buf)`:
chunks delimited by `'\n'` (inclusive). -/
def splitLines (s : List Char) : List (List Char) :=
  chunksBy (fun c => c == '\n') s

/-- The successive buffers produced by `buffer.read_until(b'\0', ..)`:
byte chunks delimited by `0` (inclusive). -/
def splitNul (bs : List Nat) : List (List Nat) :=
  chunksBy (fun b => b == 0) bs

/-- `line_buf.split_whitespace().count()`: number of maximal non-empty
runs of non-whitespace characters.  The Boolean argument records whether the
previous character was inside a word. -/
def split_whitespace_count_aux : List Char → Bool → Nat
  | [], _ => 0
  | c :: rest, inWord =>
    if rust_is_whitespace c then split_whitespace_count_aux rest false
    else (if inWord then 0 else 1) + split_whitespace_count_aux rest true

/-- `line_buf.split_whitespace().count()`. -/
def split_whitespace_count (s : List Char) : Nat :=
  split_whitespace_count_aux s false

/-- `line_buf.ends_with(LINE_CHARS)`: the last character is a line
terminator. -/
def ends_with_line_chars (s : List Char) : Bool :=
  match s.getLast? with
  | some c => is_line_char c
  | none => false

/-- `line_buf.trim_end_matches(LINE_CHARS)`: remove every trailing line
terminator character. -/
def trim_end_line_chars (s : List Char) : List Char :=
  (s.reverse.dropWhile is_line_char).reverse

/-- The command-line arguments (struct `Args`, main.rs lines 21-53), after
parsing.  `files` and `files_from` are Rust `String`s. -/
structure Args where
  files : List (List Char)
  count_bytes : Bool
  count_chars : Bool
  count_words : Bool
  count_lines : Bool
  max_line_length : Bool
  utf_chars : Bool
  files_from : Option (List Char)
  deriving DecidableEq, Repr

/-- `Args::needs_read` (main.rs lines 56-58). -/
def Args.needs_read (a : Args) : Bool :=
  a.count_chars || a.count_words || a.count_lines || a.max_line_length

/-- The `Counts` record (main.rs lines 63-70). -/
structure Counts where
  words : Nat
  lines : Nat
  bytes : Nat
  chars : Nat
  max_line_len : Nat
  deriving DecidableEq, Repr

/-- `Counts::default()`: all fields zero. -/
def Counts.default : Counts :=
  { words := 0, lines := 0, bytes := 0, chars := 0, max_line_len := 0 }

/-- `Counts::merge_with` (main.rs lines 73-79): sums `words`, `lines`,
`bytes`, `chars` (wrapping machine addition) and takes the maximum of
`max_line_len`.  The Rust version mutates `self`; here the updated
accumulator is returned. -/
def Counts.merge_with (self other : Counts) : Counts :=
  { words := (self.words + other.words) % W64
  , lines := (self.lines + other.lines) % W64
  , bytes := (self.bytes + other.bytes) % W64
  , chars := (self.chars + other.chars) % W64
  , max_line_len := max self.max_line_len other.max_line_len }

/-- The line-display-length computed at main.rs lines 148-156: `count` is
the textual-unit length of the line; when the line ends in a terminator the
byte-length difference between the line and its terminator-trimmed version
is subtracted. -/
def line_display_len (count : Nat) (line : List Char) : Nat :=
  if ends_with_line_chars line then
    count - (utf8Len line - utf8Len (trim_end_line_chars line))
  else count

/-- One iteration of the `while buffer.read_line(..)` loop body
(main.rs lines 128-161).  `named` is `file_path.is_some()`; `g` is the
grapheme-cluster counter used when `utf_chars` is set. -/
def count_line (g : List Char → Nat) (a : Args) (named : Bool)
    (c : Counts) (line : List Char) : Counts :=
  let c := { c with lines := c.lines + 1 }
  let c := if !named && a.count_bytes then { c with bytes := c.bytes + utf8Len line } else c
  let c := if a.count_words then
      { c with words := c.words + split_whitespace_count line } else c
  if a.count_chars || a.max_line_length then
    let count := if a.utf_chars then g line else line.length
    { c with chars := c.chars + count
           , max_line_len := max c.max_line_len (line_display_len count line) }
  else c

/-- `count_file` (main.rs lines 110-166) on a source whose full content is
`content`.  `named` records whether a `file_path` was supplied; for a named
file the `path.metadata()?.len()` byte-size query is the byte length of the
same unchanged content.  I/O errors of the underlying reader are handled at
the call sites (`fold_files`, `run_stdin_list` below), so the scan of an
in-memory content is total. -/
def count_file (g : List Char → Nat) (a : Args) (content : List Char)
    (named : Bool) : Counts :=
  let c0 : Counts :=
    { Counts.default with
        bytes := if named && a.count_bytes then utf8Len content else 0 }
  if a.needs_read || !named then
    (splitLines content).foldl (count_line g a named) c0
  else c0

/-- The default-mode resolution at the top of `main` (main.rs lines
199-204): when none of `count_bytes`, `count_chars`, `count_words`,
`count_lines` is set, the trio bytes/words/lines is enabled (and chars is
explicitly left off). -/
def applyDefaults (a : Args) : Args :=
  if !a.count_bytes && !a.count_chars && !a.count_words && !a.count_lines then
    { a with count_bytes := true, count_chars := false
           , count_words := true, count_lines := true }
  else a

/-- `str::from_utf8` / Rust UTF-8 validation over a byte buffer, decoding
to the scalar-value sequence.  `none` is a `Utf8Error`.  The second-byte
range checks mirror `core::str::validations::run_utf8_validation`: overlong
encodings, surrogates (lead `0xED` limits), and values above `U+10FFFF`
(lead `0xF4` limits) are rejected. -/
def utf8Cont (b : Nat) : Bool :=
  decide (0x80 ≤ b) && decide (b ≤ 0xBF)

/-- Second-byte validity per leading byte (see `utf8Cont`). -/
def utf8SecondByteOk (b b2 : Nat) : Bool :=
  if b == 0xE0 then decide (0xA0 ≤ b2) && decide (b2 ≤ 0xBF)
  else if b == 0xED then decide (0x80 ≤ b2) && decide (b2 ≤ 0x9F)
  else if b == 0xF0 then decide (0x90 ≤ b2) && decide (b2 ≤ 0xBF)
  else if b == 0xF4 then decide (0x80 ≤ b2) && decide (b2 ≤ 0x8F)
  else utf8Cont b2

/-- UTF-8 decoding (see `utf8SecondByteOk`). -/
def utf8Decode : List Nat → Option (List Char)
  | [] => some []
  | b :: rest =>
    if b < 0x80 then
      (utf8Decode rest).map (fun cs => Char.ofNat b :: cs)
    else if b < 0xC2 then none
    else if b < 0xE0 then
      match rest with
      | b2 :: rest2 =>
        if utf8Cont b2 then
          (utf8Decode rest2).map
            (fun cs => Char.ofNat ((b - 0xC0) * 0x40 + (b2 - 0x80)) :: cs)
        else none
      | [] => none
    else if b < 0xF0 then
      match rest with
      | b2 :: b3 :: rest3 =>
        if utf8SecondByteOk b b2 && utf8Cont b3 then
          (utf8Decode rest3).map
            (fun cs =>
              Char.ofNat (((b - 0xE0) * 0x40 + (b2 - 0x80)) * 0x40 + (b3 - 0x80)) :: cs)
        else none
      | _ => none
    else if b < 0xF5 then
      match rest with
      | b2 :: b3 :: b4 :: rest4 =>
        if utf8SecondByteOk b b2 && utf8Cont b3 && utf8Cont b4 then
          (utf8Decode rest4).map
            (fun cs =>
              Char.ofNat
                ((((b - 0xF0) * 0x40 + (b2 - 0x80)) * 0x40 + (b3 - 0x80)) * 0x40
                  + (b4 - 0x80)) :: cs)
        else none
      | _ => none
    else none

/-- `string.trim_matches('\0')`: strip leading and trailing NUL
characters from a decoded manifest entry. -/
def trim_nul (s : List Char) : List Char :=
  ((s.dropWhile (fun c => c == '\u0000')).reverse.dropWhile
    (fun c => c == '\u0000')).reverse

/-- The error value produced when `from_utf8(&line_buf)?` fails inside
`files_from::read_func`. -/
def utf8ErrMsg : List Char :=
  ("invalid utf-8 sequence").data

/-- The loop of `files_from::read_func` (main.rs lines 169-181) over the
already-chunked manifest: each NUL-terminated chunk is UTF-8-decoded (a
decoding failure aborts with an error), NUL-trimmed and pushed onto
`args.files`. -/
def read_func_chunks (a : Args) : List (List Nat) → Except (List Char) Args
  | [] => Except.ok a
  | chunk :: rest =>
    match utf8Decode chunk with
    | none => Except.error utf8ErrMsg
    | some s => read_func_chunks { a with files := a.files ++ [trim_nul s] } rest

/-- `files_from::read_func` on the full manifest byte content. -/
def read_func (source : List Nat) (a : Args) : Except (List Char) Args :=
  read_func_chunks a (splitNul source)

/-- `files_from` (main.rs lines 168-194).  `fetch` models
`File::open(source)` followed by reading the named manifest file (its error
is the I/O failure of that open/read); `stdinBytes` is the content read
when the manifest source is the standard-input marker. -/
def files_from_run (fetch : List Char → Except (List Char) (List Nat))
    (stdinBytes : List Nat) (a : Args) : Except (List Char) Args :=
  match a.files_from with
  | none => Except.ok a
  | some source =>
    if rust_trim source = ['-'] then read_func stdinBytes a
    else
      match fetch source with
      | Except.ok bytes => read_func bytes a
      | Except.error e => Except.error e

/-- The classification predicate used at main.rs line 217
(`f.trim() == "-"`) to partition the source list into stdin and
named-file runs. -/
def is_stdin_name (s : List Char) : Bool :=
  rust_trim s == ['-']

/-- `args.files.iter().group_by(|f| f.trim() == "-")` (Itertools):
maximal contiguous runs of the source list sharing the stdin
classification, each tagged with its key. -/
def group_runs : List (List Char) → List (Bool × List (List Char))
  | [] => []
  | f :: rest =>
    match group_runs rest with
    | [] => [(is_stdin_name f, [f])]
    | (b, grp) :: gs =>
      if is_stdin_name f == b then (b, f :: grp) :: gs
      else (is_stdin_name f, [f]) :: (b, grp) :: gs

/-- `if args.files.len() == 0 { args.files.push("-") }` (main.rs lines
208-210). -/
def mainFiles (a : Args) : List (List Char) :=
  if a.files.length = 0 then [['-']] else a.files

/-- The observable state threaded through `main`'s dispatch loop: the
running total accumulator (`counts`), the per-source stdout report lines
(source display name paired with its `Counts`), and the stderr lines. -/
structure FoldState where
  acc : Counts
  reports : List (List Char × Counts)
  errors : List (List Char)
  deriving DecidableEq, Repr

/-- Initial `FoldState`: `Counts::default()`, nothing printed. -/
def FoldState.init : FoldState :=
  { acc := Counts.default, reports := [], errors := [] }

/-- The stderr line `eprintln!("wc_r: {}: {}", &file_path, e)`
(main.rs line 248). -/
def errLine (path e : List Char) : List Char :=
  ("wc_r: ").data ++ path ++ (": ").data ++ e

/-- One step of the per-worker closure of the rayon fold (main.rs lines
232-253): open and scan one named file (`fs path` models
`File::open(path)` followed by reading; an `Except.error` is the I/O
failure of that open or scan).  On success the file's report is printed
and its counts merged into the worker accumulator; on failure a tagged
line goes to stderr and the accumulator is left unchanged. -/
def fold_step (g : List Char → Nat) (a : Args)
    (fs : List Char → Except (List Char) (List Char))
    (st : FoldState) (path : List Char) : FoldState :=
  match fs path with
  | Except.ok content =>
    let c := count_file g a content true
    { st with reports := st.reports ++ [(path, c)]
            , acc := st.acc.merge_with c }
  | Except.error e =>
    { st with errors := st.errors ++ [errLine path e] }

/-- The named-file run (main.rs lines 227-262): rayon's
`par_iter().fold(..).reduce(..)` modelled as the sequential fold of the
per-file closure over the run's paths — the aggregate is the same for
every partition of the paths across workers because `Counts.merge_with`
is commutative and associative. -/
def fold_files (g : List Char → Nat) (a : Args)
    (fs : List Char → Except (List Char) (List Char))
    (st : FoldState) (paths : List (List Char)) : FoldState :=
  paths.foldl (fold_step g a fs) st

/-- The stdin run (main.rs lines 219-226): each occurrence reads the next
segment of the shared stream — `sq i` is the outcome of the `i`-th stdin
scan (`Except.error` is a read failure, propagated with `?`).  Reports are
labelled with the literal `"-"`. -/
def run_stdin_list (g : List Char → Nat) (a : Args)
    (sq : Nat → Except (List Char) (List Char)) :
    List (List Char) → FoldState → Nat → Except (List Char) (FoldState × Nat)
  | [], st, i => Except.ok (st, i)
  | _ :: rest, st, i =>
    match sq i with
    | Except.error e => Except.error e
    | Except.ok content =>
      let c := count_file g a content false
      run_stdin_list g a sq rest
        { st with reports := st.reports ++ [(['-'], c)]
                , acc := st.acc.merge_with c } (i + 1)

/-- The `for (is_stdin, group) in ..group_by(..)` dispatch loop of `main`
(main.rs lines 217-264): stdin runs are scanned sequentially (a failure
aborts via `?`), named-file runs go through the parallel fold. -/
def run_groups (g : List Char → Nat) (a : Args)
    (fs : List Char → Except (List Char) (List Char))
    (sq : Nat → Except (List Char) (List Char)) :
    List (Bool × List (List Char)) → FoldState → Nat →
    Except (List Char) FoldState
  | [], st, _ => Except.ok st
  | (true, names) :: gs, st, i =>
    match run_stdin_list g a sq names st i with
    | Except.error e => Except.error e
    | Except.ok (st2, i2) => run_groups g a fs sq gs st2 i2
  | (false, names) :: gs, st, i =>
    run_groups g a fs sq gs (fold_files g a fs st names) i

/-- `main` (main.rs lines 196-271) up to the final total line: resolve
default flags, consume the manifest (a failure aborts), default the source
list to `["-"]`, then dispatch the grouped runs.  The total-line emission
(`counts.print(&args, "total")`) formats `FoldState.acc` and is covered by
the returned state. -/
def main_model (g : List Char → Nat) (a0 : Args)
    (fetch : List Char → Except (List Char) (List Nat)) (stdinBytes : List Nat)
    (sq : Nat → Except (List Char) (List Char))
    (fs : List Char → Except (List Char) (List Char)) :
    Except (List Char) FoldState :=
  match files_from_run fetch stdinBytes (applyDefaults a0) with
  | Except.error e => Except.error e
  | Except.ok a =>
    run_groups g a fs sq (group_runs (mainFiles a)) FoldState.init 0

/-- Arguments with all five counting flags set and scalar-value character
counting (the mode of spec §8's "a b\nc\n" example). -/
def argsAll : Args :=
  { files := [], count_bytes := true, count_chars := true, count_words := true
  , count_lines := true, max_line_length := true, utf_chars := false
  , files_from := none }

/-- Arguments with only character counting set (scalar mode). -/
def argsCharsOnly : Args :=
  { files := [], count_bytes := false, count_chars := true, count_words := false
  , count_lines := false, max_line_length := false, utf_chars := false
  , files_from := none }

/-- Arguments with only `max_line_length` set: none of the four flags the
default check of `main` consults. -/
def argsMaxOnly : Args :=
  { files := [], count_bytes := false, count_chars := false, count_words := false
  , count_lines := false, max_line_length := true, utf_chars := false
  , files_from := none }

/-- Arguments requesting only the byte count (the file-size-metadata
shortcut applies to a named file: `needs_read` is false). -/
def argsBytesOnly : Args :=
  { files := [], count_bytes := true, count_chars := false, count_words := false
  , count_lines := false, max_line_length := false, utf_chars := false
  , files_from := none }

/-- Arguments requesting bytes and lines (the stream is read line by
line). -/
def argsBytesLines : Args :=
  { files := [], count_bytes := true, count_chars := false, count_words := false
  , count_lines := true, max_line_length := false, utf_chars := false
  , files_from := none }

/-- A file-system stub for the C7 witness: opening `"b"` fails with I/O
error `"E"`, every other path opens as an empty file. -/
def fsErrB : List Char → Except (List Char) (List Char) :=
  fun p => if p = ['b'] then Except.error ['E'] else Except.ok []

/-- A file-system stub where every open succeeds with empty content. -/
def fsEmpty : List Char → Except (List Char) (List Char) :=
  fun _ => Except.ok []

/-- A manifest fetch stub whose open always fails with I/O error `"X"`. -/
def fetchErr : List Char → Except (List Char) (List Nat) :=
  fun _ => Except.error ['X']

/-- A manifest fetch stub that yields the single byte `0xFF`, which is not
valid UTF-8. -/
def fetchBadUtf8 : List Char → Except (List Char) (List Nat) :=
  fun _ => Except.ok [255]

/-- A manifest fetch stub that yields an empty manifest. -/
def fetchEmpty : List Char → Except (List Char) (List Nat) :=
  fun _ => Except.ok []

/-- A stdin stream whose every read fails with I/O error `"E"`. -/
def sqErr : Nat → Except (List Char) (List Char) :=
  fun _ => Except.error ['E']

/-- A stdin stream whose every read yields empty content. -/
def sqEmpty : Nat → Except (List Char) (List Char) :=
  fun _ => Except.ok []

/-- A stdin stream whose every read yields the content `"x"`. -/
def sqX : Nat → Except (List Char) (List Char) :=
  fun _ => Except.ok ['x']

/-- Arguments naming a manifest file `"m"`. -/
def argsWithManifest : Args :=
  { argsAll with files_from := some ['m'] }

/-- Arguments whose single source is the standard-input marker. -/
def argsDashOnly : Args :=
  { argsAll with files := [['-']] }

/-- The source identifier `" - "`: a dash surrounded by whitespace. -/
def spacedDash : List Char :=
  ' ' :: '-' :: ' ' :: []

/-- Arguments whose manifest source name is `" - "`. -/
def argsManifestDash : Args :=
  { argsAll with files_from := some spacedDash }

/-- Number of standard-input scans a grouped source list performs: one per
name in each stdin-classified run.  The `i`-th such occurrence (0-based,
in list order) reads `sq i` in `run_stdin_list`/`run_groups`. -/
def stdin_occurrences : List (Bool × List (List Char)) → Nat
  | [] => 0
  | (true, names) :: gs => names.length + stdin_occurrences gs
  | (false, _) :: gs => stdin_occurrences gs

/-- Arguments whose source list is `["f", "-", "-"]`: a named file followed
by two standard-input occurrences. -/
def argsFileDashDash : Args :=
  { argsAll with files := [['f'], ['-'], ['-']] }

/-- A stdin stream whose first read yields empty content and whose every
later read fails with I/O error `"E"`. -/
def sqSecondErr : Nat → Except (List Char) (List Char) :=
  fun i => if i = 0 then Except.ok [] else Except.error ['E']

/- ------------------------------------------------------------------ -/
/- Helper lemmas                                                       -/
/- ------------------------------------------------------------------ -/

theorem chunksBy_ne_nil (p : α → Bool) (b : α) (rest : List α) :
    chunksBy p (b :: rest) ≠ [] := by
  by_cases hp : p b
  · simp [chunksBy, hp]
  · simp only [chunksBy, hp]
    cases chunksBy p rest <;> simp

theorem chunksBy_join (p : α → Bool) (l : List α) :
    (chunksBy p l).flatten = l := by
  induction l with
  | nil => rfl
  | cons b rest ih =>
    by_cases hp : p b
    · simp [chunksBy, hp, ih]
    · simp only [chunksBy, hp]
      cases hc : chunksBy p rest with
      | nil =>
        cases rest with
        | nil => simp
        | cons x xs => exact absurd hc (chunksBy_ne_nil p x xs)
      | cons c cs =>
        rw [hc] at ih
        simp only [List.flatten_cons] at ih ⊢
        simp [← ih]

theorem utf8Len_nil : utf8Len [] = 0 := rfl

theorem utf8Len_append (s t : List Char) :
    utf8Len (s ++ t) = utf8Len s + utf8Len t := by
  simp [utf8Len]

theorem utf8Len_reverse (s : List Char) : utf8Len s.reverse = utf8Len s := by
  simp [utf8Len, List.sum_reverse]

theorem utf8Len_flatten (ls : List (List Char)) :
    utf8Len ls.flatten = (ls.map utf8Len).sum := by
  induction ls with
  | nil => rfl
  | cons l ls ih => simp [List.flatten_cons, utf8Len_append, ih]

theorem sum_utf8Len_splitLines (content : List Char) :
    ((splitLines content).map utf8Len).sum = utf8Len content := by
  rw [← utf8Len_flatten, splitLines, chunksBy_join]

/- ------------------------------------------------------------------ -/
/- Claim theorems                                                      -/
/- ------------------------------------------------------------------ -/

/-- Claim C1: `Counts.merge_with` is commutative and associative with the
all-zero `Counts.default` as starting accumulator —
`merge(merge(zero,a),b) = merge(merge(zero,b),a)` — and it sums the
`lines`, `words`, `bytes`, `chars` fields (machine-width addition) while
taking the maximum of the `max_line_len` fields. -/
theorem merge_with_comm_assoc_fields (a b c : Counts) :
    (Counts.default.merge_with a).merge_with b
      = (Counts.default.merge_with b).merge_with a
    ∧ (a.merge_with b).merge_with c = a.merge_with (b.merge_with c)
    ∧ (a.merge_with b).words = (a.words + b.words) % W64
    ∧ (a.merge_with b).lines = (a.lines + b.lines) % W64
    ∧ (a.merge_with b).bytes = (a.bytes + b.bytes) % W64
    ∧ (a.merge_with b).chars = (a.chars + b.chars) % W64
    ∧ (a.merge_with b).max_line_len = max a.max_line_len b.max_line_len := by
  refine ⟨?_, ?_, rfl, rfl, rfl, rfl, rfl⟩
  · simp [Counts.merge_with, Counts.default, Nat.mod_add_mod, Nat.max_comm,
      Nat.add_comm]
  · simp [Counts.merge_with, Nat.mod_add_mod, Nat.add_mod_mod, Nat.add_assoc,
      Nat.max_assoc]

/-- Claim C3, counterexample: with only `--max-line-length` set (one of the
five mode flags), the code still applies the default trio — `count_bytes`,
`count_words`, `count_lines` all become active although they were not
explicitly set, because the check in `main` does not consult
`max_line_length`. -/
theorem default_flags_counterexample :
    argsMaxOnly.max_line_length = true
    ∧ argsMaxOnly.count_bytes = false
    ∧ argsMaxOnly.count_words = false
    ∧ argsMaxOnly.count_lines = false
    ∧ (applyDefaults argsMaxOnly).count_bytes = true
    ∧ (applyDefaults argsMaxOnly).count_words = true
    ∧ (applyDefaults argsMaxOnly).count_lines = true
    ∧ (applyDefaults argsMaxOnly).max_line_length = true := by
  decide

/-- Claim C3, amended: the default trio {bytes, words, lines} is applied
exactly when none of the FOUR flags `count_bytes`, `count_chars`,
`count_words`, `count_lines` is explicitly set; `max_line_length` is not
consulted by the default check and is itself never altered (so
`--max-line-length` alone still gets the default trio added). -/
theorem default_flags_resolution (a : Args) :
    (applyDefaults a).count_bytes
      = (a.count_bytes || !(a.count_bytes || a.count_chars || a.count_words || a.count_lines))
    ∧ (applyDefaults a).count_words
      = (a.count_words || !(a.count_bytes || a.count_chars || a.count_words || a.count_lines))
    ∧ (applyDefaults a).count_lines
      = (a.count_lines || !(a.count_bytes || a.count_chars || a.count_words || a.count_lines))
    ∧ (applyDefaults a).count_chars = a.count_chars
    ∧ (applyDefaults a).max_line_length = a.max_line_length
    ∧ (applyDefaults a).utf_chars = a.utf_chars
    ∧ (applyDefaults a).files = a.files
    ∧ (applyDefaults a).files_from = a.files_from := by
  rcases a with ⟨fs, cb, cc, cw, cl, ml, uc, ff⟩
  cases cb <;> cases cc <;> cases cw <;> cases cl <;> simp [applyDefaults]

/-- Claim C5, counterexample: scanning `"a b\nc\n"` with all mode flags
enabled and scalar-value character counting yields a `words` field of 3
(the words are "a", "b", "c"), not 2 as claimed. -/
theorem scan_example_counterexample :
    (count_file (fun _ => 0) argsAll ("a b\nc\n").data false).words = 3
    ∧ (count_file (fun _ => 0) argsAll ("a b\nc\n").data false).words ≠ 2 := by
  decide

/-- Claim C5, amended: scanning `"a b\nc\n"` (two terminated lines) with
all mode flags enabled and scalar-value character counting yields
`lines:2, words:3, bytes:6, chars:6, max_line_len:3` (line "a b" has
display length 3, excluding its terminator). -/
theorem scan_example_counts :
    count_file (fun _ => 0) argsAll ("a b\nc\n").data false
      = { words := 3, lines := 2, bytes := 6, chars := 6, max_line_len := 3 } := by
  decide

/-- Claim C6: scanning an empty source (zero bytes of input) yields the
all-zero `Counts`, for every grapheme counter, every combination of mode
flags, and both the named-file (`named = true`) and standard-input
(`named = false`) paths. -/
theorem count_file_empty (g : List Char → Nat) (a : Args) (named : Bool) :
    count_file g a [] named = Counts.default := by
  simp [count_file, splitLines, chunksBy, utf8Len, Counts.default]

theorem is_line_char_utf8Size (c : Char) (h : is_line_char c = true) :
    c.utf8Size = 1 := by
  simp [is_line_char] at h
  rcases h with (h | h) | h <;> subst h <;> decide

theorem utf8Len_of_line_chars (l : List Char)
    (h : ∀ c ∈ l, is_line_char c = true) : utf8Len l = l.length := by
  induction l with
  | nil => rfl
  | cons c t ih =>
    have hc : c.utf8Size = 1 := is_line_char_utf8Size c (h c (by simp))
    simp [utf8Len] at ih ⊢
    rw [hc, ih fun x hx => h x (by simp [hx])]
    omega

/-- Claim C2, counterexample: scanning the input `"a\r\n"` with character
counting enabled (scalar mode) processes the single line `"a\r\n"` of
textual-unit length 3; the line ends in a recognized terminator, so the
claim says its display length is `3 - 1 = 2`, but the code subtracts the
whole trailing terminator run (`'\r'` and `'\n'`) and records 1. -/
theorem display_len_counterexample :
    ends_with_line_chars ('a' :: '\r' :: '\n' :: []) = true
    ∧ ('a' :: '\r' :: '\n' :: []).length = 3
    ∧ line_display_len 3 ('a' :: '\r' :: '\n' :: []) = 1
    ∧ (count_file (fun _ => 0) argsCharsOnly ("a\r\n").data false).max_line_len = 1
    ∧ line_display_len 3 ('a' :: '\r' :: '\n' :: []) ≠ 3 - 1 := by
  decide

/-- Claim C2, amended: for a line scanned with scalar-value character
counting, the line-display-length used to update `max_line_len` equals the
textual-unit length of the line with its entire maximal trailing run of
recognized terminator characters (line feed, carriage return, form feed)
removed — i.e. one textual unit is subtracted per trailing terminator
character (each being a single byte), not at most one in total; when the
line does not end in a terminator the full length is used. -/
theorem display_len_strips_trailing_run (line : List Char) :
    line_display_len line.length line = (trim_end_line_chars line).length := by
  by_cases h : ends_with_line_chars line = true
  · have hsplit : line.reverse.takeWhile is_line_char
        ++ line.reverse.dropWhile is_line_char = line.reverse :=
      List.takeWhile_append_dropWhile is_line_char line.reverse
    set t := line.reverse.takeWhile is_line_char with ht
    set d := line.reverse.dropWhile is_line_char with hd
    have hline : line = d.reverse ++ t.reverse := by
      have := congrArg List.reverse hsplit
      simpa [List.reverse_append] using this.symm
    have htlen : utf8Len t = t.length :=
      utf8Len_of_line_chars t fun c hc => List.mem_takeWhile_imp hc
    have hlen : utf8Len line = utf8Len d + utf8Len t := by
      rw [hline, utf8Len_append, utf8Len_reverse, utf8Len_reverse]
    have htrim : utf8Len (trim_end_line_chars line) = utf8Len d := by
      rw [trim_end_line_chars, ← hd, utf8Len_reverse]
    have hlens : line.length = d.length + t.length := by
      rw [hline]
      simp
    have htrimlen : (trim_end_line_chars line).length = d.length := by
      rw [trim_end_line_chars, ← hd, List.length_reverse]
    rw [line_display_len, if_pos h, hlen, htrim, htrimlen, hlens, htlen]
    omega
  · have htrim : trim_end_line_chars line = line := by
      rcases hr : line.reverse with _ | ⟨c, t⟩
      · have : line = [] := List.reverse_eq_nil_iff.mp hr
        simp [trim_end_line_chars, this]
      · have hlast : line.getLast? = some c := by
          rw [← List.head?_reverse, hr]
          rfl
        have hnc : is_line_char c = false := by
          rcases hb : is_line_char c
          · rfl
          · exact absurd (by simp [ends_with_line_chars, hlast, hb]) h
        rw [trim_end_line_chars, hr, List.dropWhile_cons, if_neg (by simp [hnc]),
          ← hr, List.reverse_reverse]
    rw [line_display_len, if_neg h, htrim]

theorem count_line_bytesOnly_named (g : List Char → Nat) (c : Counts)
    (l : List Char) :
    count_line g argsBytesOnly true c l = { c with lines := c.lines + 1 } := rfl

theorem count_line_bytesLines_named (g : List Char → Nat) (c : Counts)
    (l : List Char) :
    count_line g argsBytesLines true c l = { c with lines := c.lines + 1 } := rfl

theorem count_line_bytesLines_stdin (g : List Char → Nat) (c : Counts)
    (l : List Char) :
    count_line g argsBytesLines false c l
      = { c with lines := c.lines + 1, bytes := c.bytes + utf8Len l } := rfl

theorem fold_bytesLines_named_bytes (g : List Char → Nat)
    (ls : List (List Char)) (c : Counts) :
    (ls.foldl (count_line g argsBytesLines true) c).bytes = c.bytes := by
  induction ls generalizing c with
  | nil => rfl
  | cons l ls ih =>
    rw [List.foldl_cons, count_line_bytesLines_named, ih]

theorem fold_bytesLines_stdin_bytes (g : List Char → Nat)
    (ls : List (List Char)) (c : Counts) :
    (ls.foldl (count_line g argsBytesLines false) c).bytes
      = c.bytes + (ls.map utf8Len).sum := by
  induction ls generalizing c with
  | nil => simp
  | cons l ls ih =>
    rw [List.foldl_cons, count_line_bytesLines_stdin, ih]
    simp [Nat.add_assoc]

/-- Claim C4: for the same named file with unchanged contents, the `bytes`
field produced when only byte counting is requested (the file-size-metadata
shortcut: `needs_read` is false and the stream is never read) equals the
`bytes` field produced when bytes and lines are both requested (the stream
is read line by line): both equal the file's byte length.  The third
conjunct checks the read-side accumulation against the same content on the
standard-input path, where `bytes` really is summed line by line. -/
theorem byte_count_paths_agree (g : List Char → Nat) (content : List Char) :
    (count_file g argsBytesOnly content true).bytes
      = (count_file g argsBytesLines content true).bytes
    ∧ (count_file g argsBytesOnly content true).bytes = utf8Len content
    ∧ (count_file g argsBytesLines content false).bytes = utf8Len content := by
  have h1 : (count_file g argsBytesOnly content true).bytes = utf8Len content := rfl
  have h2 : (count_file g argsBytesLines content true).bytes = utf8Len content := by
    show ((splitLines content).foldl (count_line g argsBytesLines true)
      { Counts.default with bytes := utf8Len content }).bytes = utf8Len content
    rw [fold_bytesLines_named_bytes]
  have h3 : (count_file g argsBytesLines content false).bytes = utf8Len content := by
    show ((splitLines content).foldl (count_line g argsBytesLines false)
      { Counts.default with bytes := 0 }).bytes = utf8Len content
    rw [fold_bytesLines_stdin_bytes]
    simp [sum_utf8Len_splitLines]
  exact ⟨h1.trans h2.symm, h1, h3⟩

theorem fold_files_errors_split (g : List Char → Nat) (a : Args)
    (fs : List Char → Except (List Char) (List Char)) (paths : List (List Char))
    (acc : Counts) (rep : List (List Char × Counts)) (err : List (List Char)) :
    fold_files g a fs ⟨acc, rep, err⟩ paths
      = { fold_files g a fs ⟨acc, rep, []⟩ paths with
          errors := err ++ (fold_files g a fs ⟨acc, rep, []⟩ paths).errors } := by
  induction paths generalizing acc rep err with
  | nil => simp [fold_files]
  | cons p rest ih =>
    rcases hp : fs p with e | content
    · show fold_files g a fs (fold_step g a fs ⟨acc, rep, err⟩ p) rest = _
      rw [show fold_step g a fs ⟨acc, rep, err⟩ p
          = ⟨acc, rep, err ++ [errLine p e]⟩ by simp [fold_step, hp]]
      rw [ih acc rep (err ++ [errLine p e])]
      conv_rhs =>
        rw [show fold_files g a fs ⟨acc, rep, []⟩ (p :: rest)
            = fold_files g a fs ⟨acc, rep, [] ++ [errLine p e]⟩ rest by
          simp [fold_files, fold_step, hp]]
        rw [ih acc rep ([] ++ [errLine p e])]
      simp
    · show fold_files g a fs (fold_step g a fs ⟨acc, rep, err⟩ p) rest = _
      rw [show fold_step g a fs ⟨acc, rep, err⟩ p
          = ⟨acc.merge_with (count_file g a content true),
             rep ++ [(p, count_file g a content true)], err⟩ by
        simp [fold_step, hp]]
      rw [ih]
      conv_rhs =>
        rw [show fold_files g a fs ⟨acc, rep, []⟩ (p :: rest)
            = fold_files g a fs ⟨acc.merge_with (count_file g a content true),
                rep ++ [(p, count_file g a content true)], []⟩ rest by
          simp [fold_files, fold_step, hp]]

/-- Claim C7: inside a named-file run, a failure opening or scanning one
file (here: `fs path = error e`) is caught at that file's boundary — the
run's outcome is exactly the outcome of the remaining files started from a
state whose stderr has gained the line `wc_r: <path>: <e>`; in particular
the accumulated total and the per-file reports are the same as if the
failed file were absent (it contributes nothing), and the remaining files
of the run are still processed. -/
theorem file_error_caught_at_boundary (g : List Char → Nat) (a : Args)
    (fs : List Char → Except (List Char) (List Char)) (st : FoldState)
    (path e : List Char) (post : List (List Char))
    (h : fs path = Except.error e) :
    fold_files g a fs st (path :: post)
      = fold_files g a fs { st with errors := st.errors ++ [errLine path e] } post
    ∧ (fold_files g a fs st (path :: post)).acc
      = (fold_files g a fs st post).acc
    ∧ (fold_files g a fs st (path :: post)).reports
      = (fold_files g a fs st post).reports := by
  have h1 : fold_files g a fs st (path :: post)
      = fold_files g a fs { st with errors := st.errors ++ [errLine path e] } post := by
    show fold_files g a fs (fold_step g a fs st path) post = _
    rw [show fold_step g a fs st path
        = { st with errors := st.errors ++ [errLine path e] } by
      simp [fold_step, h]]
  rcases st with ⟨acc, rep, err⟩
  refine ⟨h1, ?_, ?_⟩ <;>
    rw [h1, fold_files_errors_split g a fs post acc rep (err ++ [errLine path e]),
      fold_files_errors_split g a fs post acc rep err]

/-- Claim C7, witness: with a file system where opening `"b"` fails with
error `"E"` and `"q"` opens as an empty file, processing `["b", "q"]`
leaves the same accumulator and reports as processing `["q"]` alone, and
stderr gains the tagged line. -/
theorem file_error_caught_at_boundary_witness :
    fold_files (fun _ => 0) argsAll fsErrB FoldState.init (['b'] :: ['q'] :: [])
      = fold_files (fun _ => 0) argsAll fsErrB
          { FoldState.init with errors := FoldState.init.errors ++ [errLine ['b'] ['E']] }
          (['q'] :: [])
    ∧ (fold_files (fun _ => 0) argsAll fsErrB FoldState.init (['b'] :: ['q'] :: [])).acc
      = (fold_files (fun _ => 0) argsAll fsErrB FoldState.init (['q'] :: [])).acc :=
  ⟨(file_error_caught_at_boundary (fun _ => 0) argsAll fsErrB FoldState.init
      ['b'] ['E'] (['q'] :: []) rfl).1,
   (file_error_caught_at_boundary (fun _ => 0) argsAll fsErrB FoldState.init
      ['b'] ['E'] (['q'] :: []) rfl).2.1⟩

theorem applyDefaults_files_from (a : Args) :
    (applyDefaults a).files_from = a.files_from := by
  rw [applyDefaults]
  split <;> rfl

theorem run_stdin_list_fails (g : List Char → Nat) (a : Args)
    (sq : Nat → Except (List Char) (List Char)) (e : List Char) (j : Nat)
    (names : List (List Char)) :
    ∀ st i, i ≤ j → (∀ k, i ≤ k → k < j → ∃ c, sq k = Except.ok c) →
      sq j = Except.error e → j < i + names.length →
      run_stdin_list g a sq names st i = Except.error e := by
  induction names with
  | nil =>
    intro st i hij _ _ hlt
    exact absurd hij (by simp at hlt; omega)
  | cons n rest ih =>
    intro st i hij hok herr hlt
    by_cases hji : j = i
    · subst hji
      simp [run_stdin_list, herr]
    · obtain ⟨c, hc⟩ := hok i (Nat.le_refl i) (by omega)
      simp only [run_stdin_list, hc]
      exact ih _ (i + 1) (by omega)
        (fun k hk1 hk2 => hok k (by omega) hk2) herr (by simp at hlt; omega)

theorem run_stdin_list_succeeds (g : List Char → Nat) (a : Args)
    (sq : Nat → Except (List Char) (List Char)) (names : List (List Char)) :
    ∀ st i, (∀ k, i ≤ k → k < i + names.length → ∃ c, sq k = Except.ok c) →
      ∃ st2, run_stdin_list g a sq names st i
        = Except.ok (st2, i + names.length) := by
  induction names with
  | nil =>
    intro st i _
    exact ⟨st, by simp [run_stdin_list]⟩
  | cons n rest ih =>
    intro st i hok
    obtain ⟨c, hc⟩ := hok i (Nat.le_refl i) (by simp)
    obtain ⟨st2, h2⟩ := ih
      { st with reports := st.reports ++ [(['-'], count_file g a c false)]
              , acc := st.acc.merge_with (count_file g a c false) }
      (i + 1) (fun k hk1 hk2 => hok k (by omega) (by simp; omega))
    refine ⟨st2, ?_⟩
    simp only [run_stdin_list, hc, h2]
    have hidx : i + 1 + rest.length = i + (n :: rest).length := by
      simp
      omega
    rw [hidx]

theorem run_groups_stdin_fails (g : List Char → Nat) (a : Args)
    (fs : List Char → Except (List Char) (List Char))
    (sq : Nat → Except (List Char) (List Char)) (e : List Char) (j : Nat)
    (gs : List (Bool × List (List Char))) :
    ∀ st i, i ≤ j → (∀ k, i ≤ k → k < j → ∃ c, sq k = Except.ok c) →
      sq j = Except.error e → j < i + stdin_occurrences gs →
      run_groups g a fs sq gs st i = Except.error e := by
  induction gs with
  | nil =>
    intro st i hij _ _ hlt
    exact absurd hij (by simp [stdin_occurrences] at hlt; omega)
  | cons grp gs ih =>
    rcases grp with ⟨b, names⟩
    cases b
    · intro st i hij hok herr hlt
      simp only [run_groups]
      exact ih _ i hij hok herr (by simpa [stdin_occurrences] using hlt)
    · intro st i hij hok herr hlt
      by_cases hj : j < i + names.length
      · have hf := run_stdin_list_fails g a sq e j names st i hij hok herr hj
        simp [run_groups, hf]
      · obtain ⟨st2, h2⟩ := run_stdin_list_succeeds g a sq names st i
          (fun k hk1 hk2 => hok k hk1 (by omega))
        simp only [run_groups, h2]
        exact ih st2 (i + names.length) (by omega)
          (fun k hk1 hk2 => hok k (by omega) hk2) herr
          (by simp [stdin_occurrences] at hlt; omega)

/-- Claim C8: (1) a failure opening the named manifest source, (2) a
failure parsing manifest content (invalid UTF-8 in an entry), and (3) a
failure reading standard input as a source each abort the whole invocation
with that error.  In case (3) the failing read may be any stdin occurrence
of the run — `j` is its 0-based position among all stdin occurrences of
the grouped source list (every earlier stdin read succeeds, any number of
named-file groups may precede or follow) — and the abort result holds
regardless of everything after it, so no further sources are processed. -/
theorem fatal_failures_abort (g : List Char → Nat) (a0 : Args)
    (fetch : List Char → Except (List Char) (List Nat)) (sb : List Nat)
    (sq : Nat → Except (List Char) (List Char))
    (fs : List Char → Except (List Char) (List Char))
    (src e : List Char) (bytes : List Nat) (a1 : Args) (j : Nat) :
    (a0.files_from = some src → ¬rust_trim src = ['-'] →
      fetch src = Except.error e →
      main_model g a0 fetch sb sq fs = Except.error e)
    ∧ (a0.files_from = some src → ¬rust_trim src = ['-'] →
      fetch src = Except.ok bytes →
      read_func bytes (applyDefaults a0) = Except.error e →
      main_model g a0 fetch sb sq fs = Except.error e)
    ∧ (files_from_run fetch sb (applyDefaults a0) = Except.ok a1 →
      (∀ k, k < j → ∃ c, sq k = Except.ok c) →
      sq j = Except.error e →
      j < stdin_occurrences (group_runs (mainFiles a1)) →
      main_model g a0 fetch sb sq fs = Except.error e) := by
  refine ⟨?_, ?_, ?_⟩
  · intro h1 h2 h3
    have hff : files_from_run fetch sb (applyDefaults a0) = Except.error e := by
      rw [files_from_run, applyDefaults_files_from, h1]
      simp [h2, h3]
    simp [main_model, hff]
  · intro h1 h2 h3 h4
    have hff : files_from_run fetch sb (applyDefaults a0) = Except.error e := by
      rw [files_from_run, applyDefaults_files_from, h1]
      simp [h2, h3, h4]
    simp [main_model, hff]
  · intro h1 h2 h3 h4
    simp only [main_model, h1]
    exact run_groups_stdin_fails g a1 fs sq e j (group_runs (mainFiles a1))
      FoldState.init 0 (Nat.zero_le j) (fun k _ hk => h2 k hk) h3 (by omega)

/-- Claim C8, witness: four fatal scenarios at concrete inputs — a
manifest named `"m"` whose open fails with `"X"`; a manifest whose content
is the invalid UTF-8 byte `0xFF`; a lone stdin source whose read fails
with `"E"`; and the source list `["f", "-", "-"]`, where the failing read
is the second stdin occurrence (`j = 1`), after a named-file group and a
successful first stdin read. -/
theorem fatal_failures_abort_witness :
    main_model (fun _ => 0) argsWithManifest fetchErr [] sqEmpty fsEmpty
      = Except.error ['X']
    ∧ main_model (fun _ => 0) argsWithManifest fetchBadUtf8 [] sqEmpty fsEmpty
      = Except.error utf8ErrMsg
    ∧ main_model (fun _ => 0) argsDashOnly fetchEmpty [] sqErr fsEmpty
      = Except.error ['E']
    ∧ main_model (fun _ => 0) argsFileDashDash fetchEmpty [] sqSecondErr fsEmpty
      = Except.error ['E'] :=
  ⟨(fatal_failures_abort (fun _ => 0) argsWithManifest fetchErr [] sqEmpty fsEmpty
      ['m'] ['X'] [] argsAll 0).1 rfl (by decide) rfl,
   (fatal_failures_abort (fun _ => 0) argsWithManifest fetchBadUtf8 [] sqEmpty fsEmpty
      ['m'] utf8ErrMsg [255] argsAll 0).2.1 rfl (by decide) rfl rfl,
   (fatal_failures_abort (fun _ => 0) argsDashOnly fetchEmpty [] sqErr fsEmpty
      [] ['E'] [] argsDashOnly 0).2.2 rfl
      (fun k hk => absurd hk (Nat.not_lt_zero k)) rfl (by decide),
   (fatal_failures_abort (fun _ => 0) argsFileDashDash fetchEmpty [] sqSecondErr fsEmpty
      [] ['E'] [] argsFileDashDash 1).2.2 rfl
      (fun k hk => ⟨[], by simp [sqSecondErr, Nat.lt_one_iff.mp hk]⟩)
      rfl (by decide)⟩

/-- Claim C9: reading a manifest whose content is `"a\0b\0c\0"`
(NUL-terminated names) appends exactly the entries `["a","b","c"]`, in
that order and with the NUL delimiters stripped, to the directly specified
sources already in `args.files`. -/
theorem manifest_nul_entries (a : Args) :
    read_func (97 :: 0 :: 98 :: 0 :: 99 :: 0 :: []) a
      = Except.ok { a with files := a.files ++ [['a'], ['b'], ['c']] } := by
  have hsplit : splitNul (97 :: 0 :: 98 :: 0 :: 99 :: 0 :: [])
      = [[97, 0], [98, 0], [99, 0]] := rfl
  have hd : utf8Decode [97, 0] = some ['a', '\u0000'] := rfl
  have hd2 : utf8Decode [98, 0] = some ['b', '\u0000'] := rfl
  have hd3 : utf8Decode [99, 0] = some ['c', '\u0000'] := rfl
  have ht : trim_nul ['a', '\u0000'] = ['a'] := rfl
  have ht2 : trim_nul ['b', '\u0000'] = ['b'] := rfl
  have ht3 : trim_nul ['c', '\u0000'] = ['c'] := rfl
  rw [read_func, hsplit]
  simp [read_func_chunks, hd, hd2, hd3, ht, ht2, ht3]

/-- Claim C10: a source identifier (in the source list, via the grouping
of `main`) and the manifest source name (via `files_from`) are classified
as standard input exactly when the identifier with leading and trailing
whitespace removed equals `"-"`; in particular `" - "` is dispatched to
the stdin scan (labelled `"-"`, content taken from the stdin stream, the
file system never consulted) rather than opened as a file of that name. -/
theorem stdin_classification (s : List Char) (a : Args)
    (fetch : List Char → Except (List Char) (List Nat)) (sb : List Nat)
    (g : List Char → Nat) (sq : Nat → Except (List Char) (List Char))
    (fs : List Char → Except (List Char) (List Char)) (content : List Char) :
    (is_stdin_name s = true ↔ rust_trim s = ['-'])
    ∧ group_runs [s] = [(is_stdin_name s, [s])]
    ∧ (a.files_from = some s → rust_trim s = ['-'] →
        files_from_run fetch sb a = read_func sb a)
    ∧ (sq 0 = Except.ok content →
        run_groups g a fs sq (group_runs [spacedDash]) FoldState.init 0
          = Except.ok
              { acc := Counts.default.merge_with (count_file g a content false)
              , reports := [(['-'], count_file g a content false)]
              , errors := [] }) := by
  refine ⟨by simp [is_stdin_name], rfl, ?_, ?_⟩
  · intro h1 h2
    rw [files_from_run, h1]
    simp [h2]
  · intro h
    have hg : group_runs [spacedDash] = [(true, [spacedDash])] := by decide
    rw [hg]
    simp [run_groups, run_stdin_list, h, FoldState.init]

/-- Claim C10, witness: with the manifest source name `" - "` the manifest
is read from standard input (the fetch stub is never consulted), and the
source list `[" - "]` is scanned as standard input, reported under the
label `"-"`. -/
theorem stdin_classification_witness :
    files_from_run fetchEmpty [] argsManifestDash = read_func [] argsManifestDash
    ∧ run_groups (fun _ => 0) argsManifestDash fsEmpty sqX
        (group_runs [spacedDash]) FoldState.init 0
      = Except.ok
          { acc := Counts.default.merge_with
              (count_file (fun _ => 0) argsManifestDash ['x'] false)
          , reports := [(['-'], count_file (fun _ => 0) argsManifestDash ['x'] false)]
          , errors := [] } :=
  ⟨(stdin_classification spacedDash argsManifestDash fetchEmpty [] (fun _ => 0)
      sqX fsEmpty ['x']).2.2.1 rfl (by decide),
   (stdin_classification spacedDash argsManifestDash fetchEmpty [] (fun _ => 0)
      sqX fsEmpty ['x']).2.2.2 rfl⟩
